import Mathlib

/-!
Verification of the documentation-build configuration script `docs/conf.py`.

The script is embedded shallowly:
* Python values parsed from TOML / JSON are modelled by `PyVal`;
  Python's truthiness, `dict.get`, `dict[...]`, `str.join`, `str.lower`,
  `str.replace("-", "_")` and `str(...)` are modelled by executable
  definitions (`PyVal.truthy`, `PyVal.get`, `PyVal.subscript`, `pyJoin`,
  `pyLower`, `pyReplaceDash`, `pyStr`).
* The transpiler registry consumed in lines 69-93 of the script is a list of
  `Transpiler` records (one per transpiler class, `name` standing for the
  class identity); `get_edge_attrs`, `edgeLine`, `sortedTranspilers` and
  `transpilers_graph` embed the graph generation.  Python's `sorted` is a
  stable sort by the key `(t.unsafe, t.cost, t.source, t.target)`; it is
  embedded as `List.insertionSort`, which is also stable for the same key
  order, and Python tuple comparison is the lexicographic order `tKey`.
* Failures (KeyError, AttributeError, TypeError, FileNotFoundError, TOML and
  JSON decode errors, OSError from launching a process) are modelled with
  `Except PyError`.  `subprocess.run` is called without `check=True`, so the
  embedding raises only when the command cannot be launched and records the
  exit status without inspecting it.
* The script's global namespace is the record `ScriptState`; the script body
  is the phase composition `runScript` over a `BuildEnv` describing the
  outward-facing inputs (files on disk, the registry, the subprocess outcome).
-/

/-- A Python value as produced by the TOML parser (`tomli.load`) or the JSON
parser (`json.load`): `None`, booleans, integers, strings, lists and
string-keyed dictionaries (dictionaries keep insertion order, as in Python). -/
inductive PyVal where
  | none
  | bool (b : Bool)
  | int (n : Int)
  | str (s : String)
  | list (l : List PyVal)
  | dict (kvs : List (String × PyVal))

/-- Python truthiness: `None`, `False`, `0`, `""`, `[]` and `{}` are falsy,
everything else is truthy. -/
def PyVal.truthy : PyVal → Bool
  | .none => false
  | .bool b => b
  | .int n => n != 0
  | .str s => s != ""
  | .list l => !l.isEmpty
  | .dict kvs => !kvs.isEmpty

/-- The Python exceptions the script can raise (it installs no handlers). -/
inductive PyError where
  | keyError
  | typeError
  | attributeError
  | indexError
  | fileNotFoundError
  | tomlDecodeError
  | jsonDecodeError
  | osError
deriving DecidableEq

/-- Defaulted dictionary lookup `v.get(k, d)`.  Calling `.get` on a value
that is not a dictionary (in the script: on `None`) raises `AttributeError`. -/
def PyVal.getD (v : PyVal) (k : String) (d : PyVal) : Except PyError PyVal :=
  match v with
  | .dict kvs => .ok ((List.lookup k kvs).getD d)
  | _ => .error .attributeError

/-- Dictionary lookup `v.get(k)`, defaulting to `None`. -/
def PyVal.get (v : PyVal) (k : String) : Except PyError PyVal :=
  v.getD k .none

/-- Subscription `v[k]`; `KeyError` when the key is absent, `TypeError` when
`v` is not a dictionary. -/
def PyVal.subscript (v : PyVal) (k : String) : Except PyError PyVal :=
  match v with
  | .dict kvs =>
    match List.lookup k kvs with
    | some w => .ok w
    | Option.none => .error .keyError
  | _ => .error .typeError

/-- Python `str(v)` for the scalar values the script converts; lists and
dictionaries are rendered by a placeholder (no claim evaluates `str` there). -/
def pyStr : PyVal → String
  | .none => "None"
  | .bool true => "True"
  | .bool false => "False"
  | .int n => toString n
  | .str s => s
  | .list _ => "[...]"
  | .dict _ => "\x7b...\x7d"

/-- Auxiliary for `", ".join(...)`: all elements must be strings, otherwise
Python raises `TypeError`. -/
def strElems : List PyVal → Except PyError (List String)
  | [] => .ok []
  | .str s :: rest => (strElems rest).map (s :: ·)
  | _ => .error .typeError

/-- Python `sep.join(v)`; `TypeError` unless `v` is a list of strings. -/
def pyJoin (sep : String) (v : PyVal) : Except PyError String :=
  match v with
  | .list l => (strElems l).map (String.intercalate sep)
  | _ => .error .typeError

/-- Python `s.lower()`, character by character (the script only compares the result
against the ASCII strings "myst" and "recommonmark"). -/
def pyLower (s : String) : String :=
  ⟨s.data.map Char.toLower⟩

/-- Python `s.replace("-", "_")`; since both the pattern and the replacement are
single characters, the replacement is exactly a character map. -/
def pyReplaceDash (s : String) : String :=
  ⟨s.data.map (fun c => if c = '-' then '_' else c)⟩

/-!
The transpiler registry (`qunicorn_core.core.transpiler`) is external to the
script; the script reads, per transpiler class, the attributes `source`,
`target`, `cost` and `unsafe`.  The field `name` stands for the identity of
the class object, so that two distinct classes with identical attributes stay
distinct elements of the deduplicating set.
-/

/-- One transpiler class as seen by `docs/conf.py`. -/
structure Transpiler where
  name : String
  source : String
  target : String
  cost : Int
  isUnsafe : Bool
deriving DecidableEq

/-- Lines 71-73: the set `transpilers`, accumulated over all known formats
and deduplicated (a Python `set` of class objects), represented as the list
of first occurrences. -/
def transpilers (knownFormats : List String)
    (getTranspilers : String → List Transpiler) : List Transpiler :=
  (knownFormats.flatMap getTranspilers).dedup

/-- Lines 76-82, `get_edge_attrs`: the edge attribute string of one
transpiler. -/
def get_edge_attrs (t : Transpiler) : String :=
  if t.isUnsafe then
    "[label=\"" ++ toString t.cost ++
      "; unsafe\", style=\"dashed\", color=\"#555555\", fontcolor=\"#555555\"]"
  else if t.cost = 1 then ""
  else "[label=\"" ++ toString t.cost ++ "\"]"

/-- Line 87: the f-string for a single edge,
`'"{t.source}" -> "{t.target}" {get_edge_attrs(t)}'` (note the trailing
space before an empty attribute string). -/
def edgeLine (t : Transpiler) : String :=
  "\"" ++ t.source ++ "\" -> \"" ++ t.target ++ "\" " ++ get_edge_attrs t

/-- The sort key of line 88, `(t.unsafe, t.cost, t.source, t.target)`, under
Python tuple comparison: the lexicographic order on the components
(`False < True` for booleans, code-point order for strings). -/
abbrev TKey := Bool ×ₗ (Int ×ₗ (String ×ₗ String))

/-- The key of one transpiler. -/
def tKey (t : Transpiler) : TKey :=
  toLex (t.isUnsafe, toLex (t.cost, toLex (t.source, t.target)))

/-- The comparison `sorted` uses: key of `a` at most key of `b`. -/
def tle (a b : Transpiler) : Prop := tKey a ≤ tKey b

instance : DecidableRel tle :=
  fun a b => inferInstanceAs (Decidable (tKey a ≤ tKey b))

instance : IsTotal Transpiler tle :=
  ⟨fun a b => le_total (tKey a) (tKey b)⟩

instance : IsTrans Transpiler tle :=
  ⟨fun _ _ _ h h' => le_trans h h'⟩

/-- Line 88, `sorted(transpilers, key=...)`: a stable sort by `tKey`
(Python's sort and insertion sort are both stable, and stable sorts agree). -/
def sortedTranspilers (ts : List Transpiler) : List Transpiler :=
  ts.insertionSort tle

/-- Lines 85-90: the generated graph description `transpilers_graph`. -/
def transpilers_graph (ts : List Transpiler) : String :=
  "digraph \x7b\n" ++
    String.intercalate "\n" ((sortedTranspilers ts).map edgeLine) ++
    "\n\x7d\n"

/-- The edge line as a function of the sort key alone: `edgeLine` reads
exactly the four attributes that make up the key. -/
def lineOfKey (k : TKey) : String :=
  "\"" ++ (ofLex (ofLex (ofLex k).2).2).1 ++ "\" -> \"" ++
    (ofLex (ofLex (ofLex k).2).2).2 ++ "\" " ++
    (if (ofLex k).1 then
      "[label=\"" ++ toString (ofLex (ofLex k).2).1 ++
        "; unsafe\", style=\"dashed\", color=\"#555555\", fontcolor=\"#555555\"]"
    else if (ofLex (ofLex k).2).1 = 1 then ""
    else "[label=\"" ++ toString (ofLex (ofLex k).2).1 ++ "\"]")

theorem edgeLine_eq_lineOfKey (t : Transpiler) : edgeLine t = lineOfKey (tKey t) := rfl

/-- C1: the edge attribute string is, per transpiler: when unsafe, a label
`<cost>; unsafe` with dashed style and gray (#555555) colours; when safe with
cost 1, the empty string; when safe with any other cost, a label holding only
the cost. -/
theorem edge_attrs_cases (t : Transpiler) :
    (t.isUnsafe = true → get_edge_attrs t =
      "[label=\"" ++ toString t.cost ++
        "; unsafe\", style=\"dashed\", color=\"#555555\", fontcolor=\"#555555\"]") ∧
    (t.isUnsafe = false → t.cost = 1 → get_edge_attrs t = "") ∧
    (t.isUnsafe = false → t.cost ≠ 1 → get_edge_attrs t =
      "[label=\"" ++ toString t.cost ++ "\"]") := by
  refine ⟨fun h => ?_, fun h h1 => ?_, fun h h1 => ?_⟩
  · simp [get_edge_attrs, h]
  · simp [get_edge_attrs, h, h1]
  · simp [get_edge_attrs, h, h1]

theorem edge_attrs_cases_witness :
    get_edge_attrs ⟨"QiskitToQasm2", "qiskit", "qasm2", 3, true⟩ =
      "[label=\"3; unsafe\", style=\"dashed\", color=\"#555555\", fontcolor=\"#555555\"]" :=
  (edge_attrs_cases ⟨"QiskitToQasm2", "qiskit", "qasm2", 3, true⟩).1 rfl

/-- C2: in the generated graph the edge lines appear in ascending order of
the key `(unsafe, cost, source, target)`: the sorted list the lines are
formatted from is pairwise nondecreasing in `tKey`. -/
theorem edges_sorted_by_key (ts : List Transpiler) :
    (sortedTranspilers ts).Pairwise (fun a b => tKey a ≤ tKey b) :=
  List.sorted_insertionSort tle ts

/-- C3: one edge line per distinct transpiler class: the number of edge lines
equals the number of distinct transpilers returned by the registry over all
known formats, whatever duplicates the registry returns. -/
theorem edge_count_eq_distinct_transpilers (fs : List String)
    (g : String → List Transpiler) :
    ((sortedTranspilers (transpilers fs g)).map edgeLine).length =
      (fs.flatMap g).toFinset.card := by
  rw [List.length_map, sortedTranspilers, List.length_insertionSort,
    transpilers, List.card_toFinset]

/-- C5: graph generation is a deterministic function of the transpiler
metadata, independent of the iteration order of the set: any two enumerations
of the same transpilers (permutations of each other) produce the same graph
text. -/
theorem graph_deterministic (l1 l2 : List Transpiler) (h : l1.Perm l2) :
    transpilers_graph l1 = transpilers_graph l2 := by
  have hperm : ((sortedTranspilers l1).map tKey).Perm
      ((sortedTranspilers l2).map tKey) :=
    ((List.perm_insertionSort tle l1).trans
      (h.trans (List.perm_insertionSort tle l2).symm)).map tKey
  have hs1 : ((sortedTranspilers l1).map tKey).Sorted (· ≤ ·) :=
    List.pairwise_map.mpr (List.sorted_insertionSort tle l1)
  have hs2 : ((sortedTranspilers l2).map tKey).Sorted (· ≤ ·) :=
    List.pairwise_map.mpr (List.sorted_insertionSort tle l2)
  have hkeys : (sortedTranspilers l1).map tKey = (sortedTranspilers l2).map tKey :=
    List.eq_of_perm_of_sorted hperm hs1 hs2
  have hlines : (sortedTranspilers l1).map edgeLine =
      (sortedTranspilers l2).map edgeLine := by
    have e1 : (sortedTranspilers l1).map edgeLine =
        ((sortedTranspilers l1).map tKey).map lineOfKey := by
      rw [List.map_map]
      exact List.map_congr_left (fun a _ => edgeLine_eq_lineOfKey a)
    have e2 : (sortedTranspilers l2).map edgeLine =
        ((sortedTranspilers l2).map tKey).map lineOfKey := by
      rw [List.map_map]
      exact List.map_congr_left (fun a _ => edgeLine_eq_lineOfKey a)
    rw [e1, e2, hkeys]
  unfold transpilers_graph
  rw [hlines]

def tpA : Transpiler := ⟨"QasmToQiskit", "qasm2", "qiskit", 1, false⟩

def tpB : Transpiler := ⟨"QiskitToBraket", "qiskit", "braket", 2, true⟩

theorem graph_deterministic_witness :
    transpilers_graph [tpA, tpB] = transpilers_graph [tpB, tpA] :=
  graph_deterministic [tpA, tpB] [tpB, tpA] (List.Perm.swap tpB tpA [])

/-!
Markdown configuration, lines 152-164.
-/

/-- The source-suffix entries registered by lines 163-164, in assignment
order. -/
def mdSuffixes : List (String × String) := [(".txt", "markdown"), (".md", "markdown")]

/-- Lines 152-164: when `enable-markdown` is truthy, pick the markdown
extension and register the suffixes.  The result is the list of extension
names appended and the suffix entries added.  `_md_plugin is True` is
Python's identity test against `True`; calling `.lower()` on any non-string
value raises `AttributeError`. -/
def markdownConfig (cfg : PyVal) :
    Except PyError (List String × List (String × String)) := do
  let v ← cfg.getD "enable-markdown" (.bool false)
  if v.truthy then do
    let ext ← (match v with
      | .bool true => Except.ok "myst_parser"
      | .str s =>
        if pyLower s = "myst" then Except.ok "myst_parser"
        else if pyLower s = "recommonmark" then Except.ok "recommonmark"
        else Except.ok "myst_parser"
      | _ => Except.error PyError.attributeError)
    pure ([ext], mdSuffixes)
  else
    pure ([], [])

/-- C9 counterexample: `enable-markdown = 1` is truthy and is neither `True`
nor one of the recognised strings, yet the script does not fall back to
`myst_parser` and registers no suffix: `1 .lower()` raises `AttributeError`
and aborts the build. -/
theorem markdown_nonstring_counterexample :
    (PyVal.int 1).truthy = true ∧
    markdownConfig (.dict [("enable-markdown", .int 1)]) =
      .error .attributeError ∧
    markdownConfig (.dict [("enable-markdown", .int 1)]) ≠
      .ok (["myst_parser"], mdSuffixes) :=
  ⟨rfl, rfl, fun h => by
    have h1 : markdownConfig (.dict [("enable-markdown", .int 1)]) =
        Except.error PyError.attributeError := rfl
    rw [h1] at h
    exact Except.noConfusion h⟩

/-- C9 amended: restricted to the value domain the code handles, the claim
holds: a truthy string value that is neither "myst" nor "recommonmark"
case-insensitively falls back to `myst_parser`; every truthy string value
and the value `True` register the `.txt` and `.md` suffixes as markdown;
truthy values of any other type (here: nonzero integers) abort with
`AttributeError` instead. -/
theorem markdown_fallback_amended (kvs : List (String × PyVal)) :
    (∀ s, List.lookup "enable-markdown" kvs = some (.str s) → s ≠ "" →
      pyLower s ≠ "myst" → pyLower s ≠ "recommonmark" →
      markdownConfig (.dict kvs) = .ok (["myst_parser"], mdSuffixes)) ∧
    (∀ s, List.lookup "enable-markdown" kvs = some (.str s) → s ≠ "" →
      ∃ e, markdownConfig (.dict kvs) = .ok ([e], mdSuffixes)) ∧
    (List.lookup "enable-markdown" kvs = some (.bool true) →
      markdownConfig (.dict kvs) = .ok (["myst_parser"], mdSuffixes)) ∧
    (∀ n, List.lookup "enable-markdown" kvs = some (.int n) → n ≠ 0 →
      markdownConfig (.dict kvs) = .error .attributeError) := by
  refine ⟨fun s h hne hm hr => ?_, fun s h hne => ?_, fun h => ?_, fun n h hn => ?_⟩
  · simp [markdownConfig, PyVal.getD, h, PyVal.truthy, hne, hm, hr, bind,
      Except.bind, Functor.map, Except.map, pure, Except.pure]
  · by_cases hm : pyLower s = "myst"
    · exact ⟨"myst_parser", by simp [markdownConfig, PyVal.getD, h,
        PyVal.truthy, hne, hm, bind, Except.bind, Functor.map, Except.map,
        pure, Except.pure]⟩
    · by_cases hr : pyLower s = "recommonmark"
      · exact ⟨"recommonmark", by
          simp [markdownConfig, PyVal.getD, h, PyVal.truthy, hne, hm, hr,
            bind, Except.bind, Functor.map, Except.map, pure, Except.pure]⟩
      · exact ⟨"myst_parser", by
          simp [markdownConfig, PyVal.getD, h, PyVal.truthy, hne, hm, hr,
            bind, Except.bind, Functor.map, Except.map, pure, Except.pure]⟩
  · simp [markdownConfig, PyVal.getD, h, PyVal.truthy, bind, Except.bind,
      Functor.map, Except.map, pure, Except.pure]
  · simp [markdownConfig, PyVal.getD, h, PyVal.truthy, hn, bind, Except.bind,
      Functor.map, Except.map, pure, Except.pure]

theorem markdown_fallback_amended_witness :
    markdownConfig (.dict [("enable-markdown", PyVal.str "commonmark")]) =
      .ok (["myst_parser"], mdSuffixes) :=
  (markdown_fallback_amended [("enable-markdown", PyVal.str "commonmark")]).1
    "commonmark" rfl (by decide) (by decide) (by decide)

/-!
Extra files, lines 290-298.
-/

/-- The changelog copy of lines 290-293, as a (source, destination) pair. -/
def changelogCopy : String × String := ("CHANGELOG.md", "docs/others/changelog.md")

/-- The readme copy of lines 295-298. -/
def readmeCopy : String × String := ("README.md", "docs/others/readme.md")

/-- Lines 290-298: the list of file copies the script performs, in order.
Both guards are plain truthiness tests on `sphinx_config.get(...)`. -/
def extraFileCopies (sph : PyVal) : Except PyError (List (String × String)) := do
  let c ← sph.get "include-changelog"
  let copies1 := if c.truthy then [changelogCopy] else []
  let r ← sph.get "include-readme"
  pure (copies1 ++ if r.truthy then [readmeCopy] else [])

/-- The copies actually performed (none when the script aborted earlier). -/
def copiesOf (r : Except PyError (List (String × String))) : List (String × String) :=
  match r with
  | .ok l => l
  | .error _ => []

/-- C6: the changelog is copied to `docs/others/changelog.md` iff
`include-changelog` is truthy, the readme to `docs/others/readme.md` iff
`include-readme` is truthy (an absent flag defaults to `None`, hence falsy),
and no other copy is performed. -/
theorem extra_files_iff (kvs : List (String × PyVal)) :
    (changelogCopy ∈ copiesOf (extraFileCopies (.dict kvs)) ↔
      ((List.lookup "include-changelog" kvs).getD .none).truthy = true) ∧
    (readmeCopy ∈ copiesOf (extraFileCopies (.dict kvs)) ↔
      ((List.lookup "include-readme" kvs).getD .none).truthy = true) ∧
    copiesOf (extraFileCopies (.dict kvs)) ⊆ [changelogCopy, readmeCopy] := by
  have hne : changelogCopy ≠ readmeCopy := by decide
  have hne' : readmeCopy ≠ changelogCopy := by decide
  cases hc : ((List.lookup "include-changelog" kvs).getD .none).truthy <;>
    cases hr : ((List.lookup "include-readme" kvs).getD .none).truthy <;>
      refine ⟨?_, ?_, ?_⟩ <;>
        simp [extraFileCopies, copiesOf, PyVal.get, PyVal.getD, hc, hr, hne,
          hne', List.subset_def, bind, Except.bind, pure, Except.pure]

/-!
The `setup` hook, lines 270-284.
-/

/-- Python dictionary assignment `d[k] = v`: an existing key is overwritten
in place (keeping its position), a new key is appended. -/
def dictSet (kvs : List (String × PyVal)) (k : String) (v : PyVal) :
    List (String × PyVal) :=
  if kvs.any (fun kv => kv.1 == k) then
    kvs.map (fun kv => if kv.1 == k then (k, v) else kv)
  else kvs ++ [(k, v)]

theorem keys_dictSet_self (acc : List (String × PyVal)) (k : String) (v : PyVal) :
    k ∈ (dictSet acc k v).map Prod.fst := by
  unfold dictSet
  by_cases h : acc.any (fun kv => kv.1 == k)
  · rw [if_pos h]
    obtain ⟨kv, hmem, hbeq⟩ := List.any_eq_true.mp h
    refine List.mem_map.mpr ⟨(k, v), List.mem_map.mpr ⟨kv, hmem, ?_⟩, rfl⟩
    simp [hbeq]
  · rw [if_neg h]
    simp

theorem keys_dictSet_mono {k' : String} (acc : List (String × PyVal))
    (k : String) (v : PyVal) (h : k' ∈ acc.map Prod.fst) :
    k' ∈ (dictSet acc k v).map Prod.fst := by
  unfold dictSet
  by_cases hb : acc.any (fun kv => kv.1 == k)
  · rw [if_pos hb]
    obtain ⟨kv, hkv, hfst⟩ := List.mem_map.mp h
    refine List.mem_map.mpr
      ⟨if kv.1 == k then (k, v) else kv, List.mem_map.mpr ⟨kv, hkv, rfl⟩, ?_⟩
    by_cases hc : kv.1 == k
    · have he : kv.1 = k := by simpa using hc
      rw [if_pos hc]
      show k = k'
      rw [← he, hfst]
    · rw [if_neg hc]
      exact hfst
  · rw [if_neg hb]
    simp only [List.map_append, List.mem_append]
    exact Or.inl h

theorem keys_foldl_dictSet_mono (f : String × PyVal → String) {k' : String}
    (l : List (String × PyVal)) (acc : List (String × PyVal))
    (h : k' ∈ acc.map Prod.fst) :
    k' ∈ ((l.foldl (fun a kv => dictSet a (f kv) kv.2) acc).map Prod.fst) := by
  induction l generalizing acc with
  | nil => exact h
  | cons kv rest ih => exact ih _ (keys_dictSet_mono acc (f kv) kv.2 h)

theorem keys_foldl_dictSet_mem (f : String × PyVal → String)
    {kv : String × PyVal} (l : List (String × PyVal))
    (acc : List (String × PyVal)) (h : kv ∈ l) :
    f kv ∈ ((l.foldl (fun a kv => dictSet a (f kv) kv.2) acc).map Prod.fst) := by
  induction l generalizing acc with
  | nil => cases h
  | cons kv' rest ih =>
    cases h with
    | head =>
      exact keys_foldl_dictSet_mono f rest _ (keys_dictSet_self acc (f kv) kv.2)
    | tail _ hmem => exact ih _ hmem

/-- Lines 271-276: the `recommonmark_config` dictionary actually built: first
the loop writing every value under its key with hyphens replaced by
underscores, then `update` re-applying the raw mapping on top. -/
def registeredOf (ckvs : List (String × PyVal)) : List (String × PyVal) :=
  ckvs.foldl (fun acc kv => dictSet acc kv.1 kv.2)
    (ckvs.foldl (fun acc kv => dictSet acc (pyReplaceDash kv.1) kv.2) [])

/-- Lines 270-284, the `setup` hook: when `sphinx_config.get("recommonmark")`
is truthy the hook registers the built `recommonmark_config` value and adds
the `AutoStructify` transform (result `(some config, true)`); otherwise it
registers nothing (`(none, false)`).  Iterating `.items()` over a truthy
non-dictionary raises `AttributeError`. -/
def setup (sph : PyVal) :
    Except PyError (Option (List (String × PyVal)) × Bool) := do
  let rc ← sph.get "recommonmark"
  if rc.truthy then
    match rc with
    | .dict ckvs => pure (some (registeredOf ckvs), true)
    | _ => Except.error PyError.attributeError
  else pure (Option.none, false)

/-- Modelled from the claim's wording, for comparison with `setup`: the
registered configuration the claim describes, whose keys are exactly the
mapping's keys with hyphens replaced by underscores. -/
def registeredSpec (ckvs : List (String × PyVal)) : List (String × PyVal) :=
  ckvs.map (fun kv => (pyReplaceDash kv.1, kv.2))

def recommonmarkCfg0 : List (String × PyVal) :=
  [("auto-toc-tree-section", .str "Contents")]

def sphinxCfg0 : PyVal := .dict [("recommonmark", .dict recommonmarkCfg0)]

/-- Length of the registered configuration, used to separate the actual
result from the one the claim predicts. -/
def regLen (r : Except PyError (Option (List (String × PyVal)) × Bool)) : Nat :=
  match r with
  | .ok (some l, _) => l.length
  | _ => 0

/-- C7 counterexample: for the mapping `{"auto-toc-tree-section": "Contents"}`
the registered configuration keeps the hyphenated original key alongside the
underscored copy, because line 276 `update`s with the raw mapping again; the
result is not the hyphen-to-underscore rename the claim describes. -/
theorem setup_counterexample :
    setup sphinxCfg0 =
      .ok (some [("auto_toc_tree_section", PyVal.str "Contents"),
        ("auto-toc-tree-section", PyVal.str "Contents")], true) ∧
    setup sphinxCfg0 ≠ .ok (some (registeredSpec recommonmarkCfg0), true) := by
  refine ⟨rfl, fun h => ?_⟩
  have h1 : regLen (setup sphinxCfg0) = 2 := rfl
  have h2 : regLen (.ok (some (registeredSpec recommonmarkCfg0), true)) = 1 := rfl
  rw [h, h2] at h1
  exact absurd h1 (by decide)

/-- C7 amended: the hook registers the configuration value and the transform
exactly when a truthy `recommonmark` mapping is present; the registered
mapping contains, for every key of the mapping, an entry under the key with
hyphens replaced by underscores, and additionally retains the original key,
because the raw mapping is re-applied by `update`. -/
theorem setup_amended (skvs : List (String × PyVal)) :
    (List.lookup "recommonmark" skvs = Option.none →
      setup (.dict skvs) = .ok (Option.none, false)) ∧
    (∀ v, List.lookup "recommonmark" skvs = some v → v.truthy = false →
      setup (.dict skvs) = .ok (Option.none, false)) ∧
    (∀ ckvs, List.lookup "recommonmark" skvs = some (.dict ckvs) → ckvs ≠ [] →
      setup (.dict skvs) = .ok (some (registeredOf ckvs), true) ∧
      ∀ kv ∈ ckvs, pyReplaceDash kv.1 ∈ (registeredOf ckvs).map Prod.fst ∧
        kv.1 ∈ (registeredOf ckvs).map Prod.fst) := by
  refine ⟨fun h => ?_, fun v h hv => ?_,
    fun ckvs h hne => ⟨?_, fun kv hkv => ⟨?_, ?_⟩⟩⟩
  · simp [setup, PyVal.get, PyVal.getD, h, PyVal.truthy, bind, Except.bind,
      pure, Except.pure]
  · simp [setup, PyVal.get, PyVal.getD, h, hv, bind, Except.bind, pure,
      Except.pure]
  · have ht : (PyVal.dict ckvs).truthy = true := by
      cases ckvs with
      | nil => exact absurd rfl hne
      | cons a l => rfl
    simp [setup, PyVal.get, PyVal.getD, h, ht, bind, Except.bind, pure,
      Except.pure]
  · simp only [registeredOf]
    exact keys_foldl_dictSet_mono Prod.fst ckvs _
      (keys_foldl_dictSet_mem (fun kv => pyReplaceDash kv.1) ckvs [] hkv)
  · simp only [registeredOf]
    exact keys_foldl_dictSet_mem Prod.fst ckvs _ hkv

theorem setup_amended_witness :
    setup sphinxCfg0 = .ok (some (registeredOf recommonmarkCfg0), true) ∧
    "auto_toc_tree_section" ∈ (registeredOf recommonmarkCfg0).map Prod.fst ∧
    "auto-toc-tree-section" ∈ (registeredOf recommonmarkCfg0).map Prod.fst := by
  have h := (setup_amended [("recommonmark", .dict recommonmarkCfg0)]).2.2
    recommonmarkCfg0 rfl (by simp [recommonmarkCfg0])
  have hk := h.2 ("auto-toc-tree-section", PyVal.str "Contents")
    (by simp [recommonmarkCfg0])
  have he : pyReplaceDash "auto-toc-tree-section" = "auto_toc_tree_section" := rfl
  exact ⟨h.1, he ▸ hk.1, hk.2⟩

/-!
The script as a whole, phases over a state record.
-/

/-- The outcome of reading and parsing one input file. -/
inductive FileRead (α : Type) where
  | missing
  | malformed
  | parsed (v : α)

/-- The world the script runs in: the two input files as parse outcomes, the
fate of the `flask openapi write` subprocess, and the transpiler registry.
The exit code of the subprocess is part of the world; whether the script
reads it is exactly what claim C4 is about. -/
structure BuildEnv where
  pyproject : FileRead PyVal
  flaskLaunchable : Bool
  flaskExitCode : Int
  apiSpec : FileRead PyVal
  knownFormats : List String
  getTranspilers : String → List Transpiler

/-- The module globals the claims are about.  `version` is a `PyVal` because
line 54 assigns a string and line 104 re-assigns a raw JSON value (possibly
`None`); `api_version` is `Option PyVal` with `none` standing for "declared
by the annotation on line 98 but never assigned". -/
structure ScriptState where
  pyproject_toml : PyVal := .none
  package_config : PyVal := .none
  sphinx_config : PyVal := .none
  project : String := ""
  author : String := ""
  copyright : String := ""
  version : PyVal := .none
  release : String := ""
  html_baseurl : Option PyVal := Option.none
  transpilersDot : String := ""
  spec : PyVal := .none
  api_title : PyVal := .none
  api_version : Option PyVal := Option.none
  extensions : List String := []
  source_suffix : List (String × String) := [(".rst", "restructuredtext")]
  copiedFiles : List (String × String) := []

/-- The state before the first assignment. -/
def initState : ScriptState := {}

/-- Lines 44-45: open and parse `pyproject.toml`; a missing file raises
`FileNotFoundError`, a parse failure a TOML decode error. -/
def loadManifest (env : BuildEnv) : Except PyError PyVal :=
  match env.pyproject with
  | .missing => .error .fileNotFoundError
  | .malformed => .error .tomlDecodeError
  | .parsed v => .ok v

def manifestPhase (env : BuildEnv) (st : ScriptState) :
    Except PyError ScriptState :=
  (loadManifest env).map fun toml => { st with pyproject_toml := toml }

/-- The values assigned by lines 47-58. -/
structure ProjectInfo where
  package_config : PyVal
  sphinx_config : PyVal
  project : String
  author : String
  copyright : String
  version : String
  release : String
  html_baseurl : Option PyVal

/-- Lines 47-58: project information.  `pyproject_toml["tool"]["poetry"]` can
raise `KeyError`/`TypeError`; when `[tool.sphinx]` is absent,
`sphinx_config` is `None` and the first `.get` on it (line 52) raises
`AttributeError`. -/
def projectInfoVals (toml : PyVal) : Except PyError ProjectInfo := do
  let tool ← toml.subscript "tool"
  let pkg ← tool.subscript "poetry"
  let sph ← tool.get "sphinx"
  let nameV ← pkg.get "name"
  let authorsV ← pkg.get "authors"
  let author ← pyJoin ", " authorsV
  let cyear ← sph.getD "copyright-year" (.int 2023)
  let versionV ← pkg.get "version"
  let version := pyStr versionV
  let releaseV ← sph.getD "release" (.str version)
  let b1 ← sph.getD "html-baseurl" .none
  let hb ← if b1.truthy then do
      let b2 ← sph.getD "html-baseurl" .none
      pure (some b2)
    else pure Option.none
  pure { package_config := pkg, sphinx_config := sph, project := pyStr nameV,
         author := author, copyright := pyStr cyear ++ ", " ++ author,
         version := version, release := pyStr releaseV, html_baseurl := hb }

def projectInfoPhase (st : ScriptState) : Except PyError ScriptState :=
  (projectInfoVals st.pyproject_toml).map fun v =>
    { st with
      package_config := v.package_config
      sphinx_config := v.sphinx_config
      project := v.project
      author := v.author
      copyright := v.copyright
      version := .str v.version
      release := v.release
      html_baseurl := v.html_baseurl }

/-- Lines 62-65: `subprocess.run(["flask", "openapi", "write", ...])` without
`check=True`: it raises only when the command cannot be launched; the exit
status is returned inside the `CompletedProcess`, which the script drops. -/
def subprocessPhase (env : BuildEnv) (st : ScriptState) :
    Except PyError ScriptState :=
  if env.flaskLaunchable then .ok st else .error .osError

/-- Lines 69-93: build the transpiler set, format the graph and write it to
`transpilers.dot`. -/
def graphPhase (env : BuildEnv) (st : ScriptState) :
    Except PyError ScriptState :=
  .ok { st with transpilersDot :=
    transpilers_graph (transpilers env.knownFormats env.getTranspilers) }

/-- Line 100-101: open and parse `docs/api.json`. -/
def loadSpec (env : BuildEnv) : Except PyError PyVal :=
  match env.apiSpec with
  | .missing => .error .fileNotFoundError
  | .malformed => .error .jsonDecodeError
  | .parsed v => .ok v

/-- Lines 102-104: `info = spec.get("info", {})`, then the title and version
read off `info`. -/
def specInfoVals (spec : PyVal) : Except PyError (PyVal × PyVal) := do
  let info ← spec.getD "info" (.dict [])
  let title ← info.get "title"
  let ver ← info.get "version"
  pure (title, ver)

def specPhase (env : BuildEnv) (st : ScriptState) :
    Except PyError ScriptState := do
  let spec ← loadSpec env
  (specInfoVals spec).map fun v =>
    { st with spec := spec, api_title := v.1, version := v.2 }

/-- One entry of the intersphinx mapping comprehension of line 147:
`(val[0], val[1] if len(val) > 1 and val[1] else None)`.  Subscription works
on lists and strings; on a (string-keyed) dictionary `val[0]` raises
`KeyError`, on other values `TypeError`. -/
def intersphinxEntry (kv : String × PyVal) :
    Except PyError (String × (PyVal × Option PyVal)) :=
  match kv.2 with
  | .list [] => .error .indexError
  | .list (a :: rest) =>
    .ok (kv.1, (a, match rest with
      | b :: _ => if b.truthy then some b else Option.none
      | [] => Option.none))
  | .str s =>
    match s.data with
    | [] => .error .indexError
    | c :: rest =>
      .ok (kv.1, (.str ⟨[c]⟩, match rest with
        | d :: _ => if (PyVal.str ⟨[d]⟩).truthy then some (.str ⟨[d]⟩)
                    else Option.none
        | [] => Option.none))
  | .dict _ => .error .keyError
  | _ => .error .typeError

/-- Lines 111-190 and 238-266: the base extension list and each `enable-*`
branch in script order (autodoc, autosectionlabel, intersphinx, markdown,
githubpages, graphviz, napoleon, todo), followed by the myst option reads.
Sub-configuration values are read (so their failures surface) but the
resulting rendering options are not tracked: no claim mentions them.
The result is the final `extensions` list and `source_suffix` mapping. -/
def extensionsVals (sph : PyVal) :
    Except PyError (List String × List (String × String)) := do
  let base := ["sphinxcontrib.redoc", "sphinx_click", "sphinx.ext.autodoc"]
  let vAutodoc ← sph.getD "enable-autodoc" (.bool false)
  let e1 := if vAutodoc.truthy then base ++ ["sphinx.ext.autodoc"] else base
  let vAsl ← sph.getD "enable-autosectionlabel" (.bool false)
  let e2 := if vAsl.truthy then e1 ++ ["sphinx.ext.autosectionlabel"] else e1
  let _ ← if vAsl.truthy then do
      let cfg ← sph.getD "autosectionlabel" .none
      if cfg.truthy then do
        let _ ← cfg.getD "prefix-document" (.bool false)
        let _ ← cfg.getD "maxdepth" .none
        pure PUnit.unit
      else pure PUnit.unit
    else pure PUnit.unit
  let vInter ← sph.getD "intersphinx-mapping" .none
  let e3 := if vInter.truthy then e2 ++ ["sphinx.ext.intersphinx"] else e2
  let _ ← if vInter.truthy then
      match vInter with
      | .dict mkvs => do
        let _ ← mkvs.mapM intersphinxEntry
        pure PUnit.unit
      | _ => Except.error PyError.attributeError
    else pure PUnit.unit
  let md ← markdownConfig sph
  let e4 := e3 ++ md.1
  let vGh ← sph.getD "enable-githubpages" (.bool false)
  let e5 := if vGh.truthy then e4 ++ ["sphinx.ext.githubpages"] else e4
  let vGv ← sph.getD "enable-graphviz" (.bool false)
  let e6 := if vGv.truthy then e5 ++ ["sphinx.ext.graphviz"] else e5
  let _ ← if vGv.truthy then do
      let cfg ← sph.getD "graphviz" .none
      if cfg.truthy then do
        let _ ← cfg.getD "dot" (.str "dot")
        let _ ← cfg.getD "dot-args" (.list [])
        let _ ← cfg.getD "output-format" (.str "png")
        pure PUnit.unit
      else pure PUnit.unit
    else pure PUnit.unit
  let vNap ← sph.getD "enable-napoleon" (.bool false)
  let e7 := if vNap.truthy then e6 ++ ["sphinx.ext.napoleon"] else e6
  let vTodo ← sph.getD "enable-todo" (.bool false)
  let e8 := if vTodo.truthy then e7 ++ ["sphinx.ext.todo"] else e7
  let _ ← if vTodo.truthy then do
      let cfg ← sph.getD "todo" .none
      if cfg.truthy then do
        let _ ← cfg.getD "include-todos" (.bool false)
        let _ ← cfg.getD "emit-warnings" (.bool false)
        let _ ← cfg.getD "link-only" (.bool false)
        pure PUnit.unit
      else pure PUnit.unit
    else pure PUnit.unit
  let mo ← sph.getD "myst" (.dict [])
  let _ ← mo.get "heading_anchors"
  let _ ← mo.get "extensions"
  let _ ← mo.get "substitutions"
  pure (e8, [(".rst", "restructuredtext")] ++ md.2)

def extensionsPhase (st : ScriptState) : Except PyError ScriptState :=
  (extensionsVals st.sphinx_config).map fun v =>
    { st with extensions := v.1, source_suffix := v.2 }

def extraFilesPhase (st : ScriptState) : Except PyError ScriptState :=
  (extraFileCopies st.sphinx_config).map fun l => { st with copiedFiles := l }

/-- The whole script, as the composition of its phases over the world. -/
def runScript (env : BuildEnv) : Except PyError ScriptState :=
  manifestPhase env initState >>= projectInfoPhase >>=
    subprocessPhase env >>= graphPhase env >>= specPhase env >>=
    extensionsPhase >>= extraFilesPhase

theorem exceptBind_ok {α β : Type} {x : Except PyError α}
    {f : α → Except PyError β} {c : β} (h : x >>= f = .ok c) :
    ∃ b, x = .ok b ∧ f b = .ok c := by
  cases x with
  | ok b => exact ⟨b, rfl, h⟩
  | error e => simp [Bind.bind, Except.bind] at h

theorem manifestPhase_ok {env : BuildEnv} {st st' : ScriptState} {m : PyVal}
    (hm : env.pyproject = .parsed m) (h : manifestPhase env st = .ok st') :
    st' = { st with pyproject_toml := m } := by
  unfold manifestPhase loadManifest at h
  rw [hm] at h
  simp [Except.map] at h
  exact h.symm

theorem manifestPhase_frame {env : BuildEnv} {st st' : ScriptState}
    (h : manifestPhase env st = .ok st') :
    st'.spec = st.spec ∧ st'.version = st.version ∧
    st'.api_title = st.api_title ∧ st'.api_version = st.api_version := by
  unfold manifestPhase at h
  cases hv : loadManifest env with
  | ok m =>
    rw [hv] at h
    simp [Except.map] at h
    rw [← h]
    exact ⟨rfl, rfl, rfl, rfl⟩
  | error e =>
    rw [hv] at h
    simp [Except.map] at h

theorem projectInfoPhase_frame {st st' : ScriptState}
    (h : projectInfoPhase st = .ok st') :
    st'.pyproject_toml = st.pyproject_toml ∧ st'.spec = st.spec ∧
    st'.api_title = st.api_title ∧ st'.api_version = st.api_version := by
  unfold projectInfoPhase at h
  cases hv : projectInfoVals st.pyproject_toml with
  | ok v =>
    rw [hv] at h
    simp [Except.map] at h
    rw [← h]
    exact ⟨rfl, rfl, rfl, rfl⟩
  | error e =>
    rw [hv] at h
    simp [Except.map] at h

theorem subprocessPhase_ok {env : BuildEnv} {st st' : ScriptState}
    (h : subprocessPhase env st = .ok st') : st' = st := by
  unfold subprocessPhase at h
  split at h
  · exact (Except.ok.inj h).symm
  · exact Except.noConfusion h

theorem graphPhase_ok {env : BuildEnv} {st st' : ScriptState}
    (h : graphPhase env st = .ok st') :
    st' = { st with transpilersDot :=
      transpilers_graph (transpilers env.knownFormats env.getTranspilers) } :=
  (Except.ok.inj h).symm

theorem specPhase_ok {env : BuildEnv} {st st' : ScriptState}
    (h : specPhase env st = .ok st') :
    ∃ spec tv, loadSpec env = .ok spec ∧ specInfoVals spec = .ok tv ∧
      st' = { st with spec := spec, api_title := tv.1, version := tv.2 } := by
  unfold specPhase at h
  obtain ⟨spec, hs, h⟩ := exceptBind_ok h
  cases hv : specInfoVals spec with
  | ok tv =>
    rw [hv] at h
    simp [Except.map] at h
    exact ⟨spec, tv, hs, hv, h.symm⟩
  | error e =>
    rw [hv] at h
    simp [Except.map] at h

theorem extensionsPhase_frame {st st' : ScriptState}
    (h : extensionsPhase st = .ok st') :
    st'.pyproject_toml = st.pyproject_toml ∧ st'.spec = st.spec ∧
    st'.version = st.version ∧ st'.api_title = st.api_title ∧
    st'.api_version = st.api_version := by
  unfold extensionsPhase at h
  cases hv : extensionsVals st.sphinx_config with
  | ok v =>
    rw [hv] at h
    simp [Except.map] at h
    rw [← h]
    exact ⟨rfl, rfl, rfl, rfl, rfl⟩
  | error e =>
    rw [hv] at h
    simp [Except.map] at h

theorem extraFilesPhase_frame {st st' : ScriptState}
    (h : extraFilesPhase st = .ok st') :
    st'.pyproject_toml = st.pyproject_toml ∧ st'.spec = st.spec ∧
    st'.version = st.version ∧ st'.api_title = st.api_title ∧
    st'.api_version = st.api_version := by
  unfold extraFilesPhase at h
  cases hv : extraFileCopies st.sphinx_config with
  | ok l =>
    rw [hv] at h
    simp [Except.map] at h
    rw [← h]
    exact ⟨rfl, rfl, rfl, rfl, rfl⟩
  | error e =>
    rw [hv] at h
    simp [Except.map] at h

/-- C8: the parsed packaging manifest and the parsed API specification are
never mutated: whenever the script completes, the manifest and the
specification held in the final state are exactly the values the parsers
produced (every phase only reads them). -/
theorem manifest_and_spec_immutable (env : BuildEnv) (st : ScriptState)
    (m : PyVal) (hm : env.pyproject = .parsed m)
    (h : runScript env = .ok st) :
    st.pyproject_toml = m ∧ ∀ j, env.apiSpec = .parsed j → st.spec = j := by
  unfold runScript at h
  obtain ⟨s6, hpre6, hep⟩ := exceptBind_ok h
  obtain ⟨s5, hpre5, hex⟩ := exceptBind_ok hpre6
  obtain ⟨s4, hpre4, hsp⟩ := exceptBind_ok hpre5
  obtain ⟨s3, hpre3, hgr⟩ := exceptBind_ok hpre4
  obtain ⟨s2, hpre2, hsub⟩ := exceptBind_ok hpre3
  obtain ⟨s1, hman, hproj⟩ := exceptBind_ok hpre2
  have h1 := manifestPhase_ok hm hman
  have h2 := projectInfoPhase_frame hproj
  have h3 := subprocessPhase_ok hsub
  have h4 := graphPhase_ok hgr
  obtain ⟨spec, tv, hload, hinfo, h5⟩ := specPhase_ok hsp
  have h6 := extensionsPhase_frame hex
  have h7 := extraFilesPhase_frame hep
  constructor
  · calc st.pyproject_toml = s6.pyproject_toml := h7.1
      _ = s5.pyproject_toml := h6.1
      _ = s4.pyproject_toml := by rw [h5]
      _ = s3.pyproject_toml := by rw [h4]
      _ = s2.pyproject_toml := by rw [h3]
      _ = s1.pyproject_toml := h2.1
      _ = m := by rw [h1]
  · intro j hj
    have hsj : spec = j := by
      unfold loadSpec at hload
      rw [hj] at hload
      exact (Except.ok.inj hload).symm
    calc st.spec = s6.spec := h7.2.1
      _ = s5.spec := h6.2.1
      _ = spec := by rw [h5]
      _ = j := hsj

/-- C10: after a successful run, the global `version` holds the `version`
field of the API specification's `info` object (the value may be `None`
when the field is absent), having overwritten the package version read from
the manifest; the declared `api_version` is never assigned and keeps its
initial unset value. -/
theorem version_from_spec_api_version_unassigned (env : BuildEnv)
    (st : ScriptState) (j : PyVal) (hj : env.apiSpec = .parsed j)
    (h : runScript env = .ok st) :
    (∃ t, specInfoVals j = .ok (t, st.version)) ∧
    st.api_version = Option.none := by
  unfold runScript at h
  obtain ⟨s6, hpre6, hep⟩ := exceptBind_ok h
  obtain ⟨s5, hpre5, hex⟩ := exceptBind_ok hpre6
  obtain ⟨s4, hpre4, hsp⟩ := exceptBind_ok hpre5
  obtain ⟨s3, hpre3, hgr⟩ := exceptBind_ok hpre4
  obtain ⟨s2, hpre2, hsub⟩ := exceptBind_ok hpre3
  obtain ⟨s1, hman, hproj⟩ := exceptBind_ok hpre2
  have h1 := manifestPhase_frame hman
  have h2 := projectInfoPhase_frame hproj
  have h3 := subprocessPhase_ok hsub
  have h4 := graphPhase_ok hgr
  obtain ⟨spec, tv, hload, hinfo, h5⟩ := specPhase_ok hsp
  have h6 := extensionsPhase_frame hex
  have h7 := extraFilesPhase_frame hep
  have hsj : spec = j := by
    unfold loadSpec at hload
    rw [hj] at hload
    exact (Except.ok.inj hload).symm
  have hvers : st.version = tv.2 := by
    calc st.version = s6.version := h7.2.2.1
      _ = s5.version := h6.2.2.1
      _ = tv.2 := by rw [h5]
  constructor
  · refine ⟨tv.1, ?_⟩
    rw [hvers, ← hsj]
    exact hinfo
  · calc st.api_version = s6.api_version := h7.2.2.2.2
      _ = s5.api_version := h6.2.2.2.2
      _ = s4.api_version := by rw [h5]
      _ = s3.api_version := by rw [h4]
      _ = s2.api_version := by rw [h3]
      _ = s1.api_version := h2.2.2.2
      _ = initState.api_version := h1.2.2.2
      _ = Option.none := rfl

/-- C4 amended: a missing `pyproject.toml` aborts with `FileNotFoundError`
and a malformed one with a TOML decode error, and a missing specification
file prevents completion; but the exit status of the `flask openapi write`
subprocess never influences the outcome (the call lacks `check=True`), and
the subprocess step aborts only when the command cannot be launched. -/
theorem error_propagation_amended (env : BuildEnv) (c c' : Int) :
    (env.pyproject = .missing → runScript env = .error .fileNotFoundError) ∧
    (env.pyproject = .malformed → runScript env = .error .tomlDecodeError) ∧
    (runScript { env with flaskExitCode := c } =
      runScript { env with flaskExitCode := c' }) ∧
    (env.flaskLaunchable = false → ∀ st, runScript env ≠ .ok st) ∧
    (env.apiSpec = .missing → ∀ st, runScript env ≠ .ok st) := by
  refine ⟨fun h => ?_, fun h => ?_, ?_, fun hf st hok => ?_, fun ha st hok => ?_⟩
  · unfold runScript manifestPhase loadManifest
    rw [h]
    rfl
  · unfold runScript manifestPhase loadManifest
    rw [h]
    rfl
  · rfl
  · unfold runScript at hok
    obtain ⟨s6, h6, _⟩ := exceptBind_ok hok
    obtain ⟨s5, h5, _⟩ := exceptBind_ok h6
    obtain ⟨s4, h4, _⟩ := exceptBind_ok h5
    obtain ⟨s3, h3, _⟩ := exceptBind_ok h4
    obtain ⟨s2, h2, hsub⟩ := exceptBind_ok h3
    unfold subprocessPhase at hsub
    rw [hf] at hsub
    simp at hsub
  · unfold runScript at hok
    obtain ⟨s6, h6, _⟩ := exceptBind_ok hok
    obtain ⟨s5, h5, _⟩ := exceptBind_ok h6
    obtain ⟨s4, h4, hsp⟩ := exceptBind_ok h5
    unfold specPhase at hsp
    obtain ⟨spec, hload, _⟩ := exceptBind_ok hsp
    unfold loadSpec at hload
    rw [ha] at hload
    exact Except.noConfusion hload

/-- A well-formed manifest for concrete runs. -/
def manifest0 : PyVal :=
  .dict [("tool", .dict
    [("poetry", .dict [("name", .str "qunicorn"),
      ("authors", .list [.str "Alice Example"]),
      ("version", .str "1.0.0")]),
     ("sphinx", .dict [("enable-markdown", .str "myst")])])]

/-- A well-formed API specification for concrete runs. -/
def spec0 : PyVal :=
  .dict [("info", .dict [("title", .str "qunicorn API"),
    ("version", .str "v2")])]

/-- A world in which every input is fine and the subprocess succeeds. -/
def envOk : BuildEnv :=
  { pyproject := .parsed manifest0
    flaskLaunchable := true
    flaskExitCode := 0
    apiSpec := .parsed spec0
    knownFormats := ["QASM2", "QISKIT"]
    getTranspilers := fun f => if f = "QASM2" then [tpA] else [tpA, tpB] }

/-- The same world, but the subprocess exits with status 2. -/
def envCex : BuildEnv := { envOk with flaskExitCode := 2 }

/-- The same world, but `pyproject.toml` does not exist. -/
def envMissing : BuildEnv := { envOk with pyproject := .missing }

/-- Whether the script ran to completion. -/
def scriptCompletes (r : Except PyError ScriptState) : Bool :=
  match r with
  | .ok _ => true
  | .error _ => false

/-- C4 counterexample: with every input file present and well formed but the
`flask openapi write` subprocess exiting with the non-zero status 2, the
script still runs to completion: `subprocess.run` is invoked without
`check=True`, so a failing subprocess does not abort the documentation
build. -/
theorem subprocess_exit_ignored_counterexample :
    envCex.flaskExitCode ≠ 0 ∧
    scriptCompletes (runScript envCex) = true :=
  ⟨by decide, rfl⟩

theorem error_propagation_amended_witness :
    runScript envMissing = .error .fileNotFoundError ∧
    runScript { envOk with flaskExitCode := 5 } =
      runScript { envOk with flaskExitCode := 7 } :=
  ⟨(error_propagation_amended envMissing 0 0).1 rfl,
   (error_propagation_amended envOk 5 7).2.2.1⟩

/-- The manifest recorded in the final state of a completed run. -/
def finalManifest (r : Except PyError ScriptState) : PyVal :=
  match r with
  | .ok st => st.pyproject_toml
  | .error _ => .none

/-- The API specification recorded in the final state of a completed run. -/
def finalSpec (r : Except PyError ScriptState) : PyVal :=
  match r with
  | .ok st => st.spec
  | .error _ => .none

/-- The `version` global at the end of a completed run. -/
def finalVersion (r : Except PyError ScriptState) : PyVal :=
  match r with
  | .ok st => st.version
  | .error _ => .none

/-- The `api_version` global at the end of a completed run. -/
def finalApiVersion (r : Except PyError ScriptState) : Option PyVal :=
  match r with
  | .ok st => st.api_version
  | .error _ => Option.none

theorem manifest_and_spec_immutable_witness :
    finalManifest (runScript envOk) = manifest0 ∧
    finalSpec (runScript envOk) = spec0 := by
  obtain ⟨st, hst⟩ : ∃ st, runScript envOk = .ok st := ⟨_, rfl⟩
  have h := manifest_and_spec_immutable envOk st manifest0 rfl hst
  rw [hst]
  exact ⟨h.1, h.2 spec0 rfl⟩

theorem version_from_spec_witness :
    finalVersion (runScript envOk) = PyVal.str "v2" ∧
    finalApiVersion (runScript envOk) = Option.none := by
  obtain ⟨st, hst⟩ : ∃ st, runScript envOk = .ok st := ⟨_, rfl⟩
  have h := version_from_spec_api_version_unassigned envOk st spec0 rfl hst
  obtain ⟨t, ht⟩ := h.1
  have hv : specInfoVals spec0 =
      .ok (PyVal.str "qunicorn API", PyVal.str "v2") := rfl
  rw [hv] at ht
  have h2 := Except.ok.inj ht
  have h3 : PyVal.str "v2" = st.version := congrArg Prod.snd h2
  rw [hst]
  exact ⟨h3.symm, h.2⟩
